/-
  Verification development for the Ultra-TM02 temperature-transmitter
  application core (src/Ultra_TM02/App).

  Shallow embedding conventions:
  * machine bytes and words are modelled as `Nat` with explicit bounds
    (`< 256`, `< 2 ^ 16`, ...) where the C types guarantee them;
  * C `float` arithmetic is modelled over `ℚ` (exact linear arithmetic);
    the raw IEEE-754 bit pattern of a float is kept as its 4 serialized
    bytes wherever the program manipulates the bytes (CRC, memcpy);
  * stateful C modules become explicit state records with pure step
    functions; hardware / LCD / USB side effects outside the modelled
    state are dropped or recorded as explicit outputs.
-/
import Mathlib

set_option maxRecDepth 100000

namespace UltraTM02

/-! ## CRC16 (app_comm.c, APP_Comm_CRC16; identical loop in app_param.c) -/

/-- One iteration of the inner bit loop of `APP_Comm_CRC16`:
`if (crc & 1) crc = (crc >> 1) ^ 0xA001; else crc >>= 1;`. -/
def crc16Bit (crc : ℕ) : ℕ :=
  if crc &&& 1 = 1 then (crc >>> 1) ^^^ 0xA001 else crc >>> 1

/-- One iteration of the outer byte loop: `crc ^= *data++` followed by the
eight bit iterations. -/
def crc16Byte (crc b : ℕ) : ℕ :=
  crc16Bit^[8] (crc ^^^ b)

/-- `APP_Comm_CRC16` (app_comm.c): CRC16, generator 0xA001, seed 0xFFFF,
over a byte list. -/
def APP_Comm_CRC16 (data : List ℕ) : ℕ :=
  data.foldl crc16Byte 0xFFFF

/-! ## Probe classification (app_temp.c, CheckProbeStatus) -/

/-- `ProbeStatus_t` (app_temp.h). -/
inductive ProbeStatus where
  | OK
  | OPEN
  | SHORT
  | RANGE_ERR
  deriving DecidableEq, Repr

/-- Threshold `PROBE_OPEN_VOLTAGE` (mV). -/
def PROBE_OPEN_VOLTAGE : ℚ := 3000
/-- Threshold `PROBE_SHORT_VOLTAGE` (mV). -/
def PROBE_SHORT_VOLTAGE : ℚ := 10
/-- Threshold `PROBE_MAX_VOLTAGE` (mV). -/
def PROBE_MAX_VOLTAGE : ℚ := 2500
/-- Threshold `PROBE_MIN_VOLTAGE` (mV). -/
def PROBE_MIN_VOLTAGE : ℚ := 100

/-- `CheckProbeStatus` (app_temp.c): classification of the filtered bridge
voltage, returned as a value instead of being stored into `g_temp`. -/
def CheckProbeStatus (voltage : ℚ) : ProbeStatus :=
  if voltage > PROBE_OPEN_VOLTAGE then .OPEN
  else if voltage < PROBE_SHORT_VOLTAGE then .SHORT
  else if voltage > PROBE_MAX_VOLTAGE ∨ voltage < PROBE_MIN_VOLTAGE then .RANGE_ERR
  else .OK

/-! ## Analog output mapper (app_output.c) -/

/-- `OUTPUT_MIN_CURRENT` (app_output.h, header absent from the snapshot;
value fixed by the in-code formula comment `I = 4 + ... * 16` and the
clamp range [4, 20] mA). -/
def OUTPUT_MIN_CURRENT : ℚ := 4
/-- `OUTPUT_MAX_CURRENT` (app_output.h, header absent from the snapshot;
value fixed by the in-code formula comment and the clamp range). -/
def OUTPUT_MAX_CURRENT : ℚ := 20

/-- `APP_Output_CalcCurrent` (app_output.c), with the module state fields
`g_output.temp_4mA` / `g_output.temp_20mA` passed explicitly. -/
def APP_Output_CalcCurrent (temp_4mA temp_20mA temperature : ℚ) : ℚ :=
  let temp_range := temp_20mA - temp_4mA
  if temp_range = 0 then 12
  else
    let current := OUTPUT_MIN_CURRENT +
      (temperature - temp_4mA) / temp_range * (OUTPUT_MAX_CURRENT - OUTPUT_MIN_CURRENT)
    let current := if current < OUTPUT_MIN_CURRENT then OUTPUT_MIN_CURRENT else current
    let current := if current > OUTPUT_MAX_CURRENT then OUTPUT_MAX_CURRENT else current
    current

/-! ## Theorems for probe classification and the output mapper -/

/-- C6: probe classification is `OPEN` iff the voltage strictly exceeds
3000 mV, otherwise `SHORT` iff it is strictly below 10 mV, otherwise
`RANGE_ERR` iff it exceeds 2500 mV or is below 100 mV, otherwise `OK`;
the boundaries are strict, so exactly 3000 mV is not classified open. -/
theorem C6_probe_classification (v : ℚ) :
    (CheckProbeStatus v = .OPEN ↔ 3000 < v) ∧
    (CheckProbeStatus v = .SHORT ↔ ¬ 3000 < v ∧ v < 10) ∧
    (CheckProbeStatus v = .RANGE_ERR ↔
      ¬ 3000 < v ∧ ¬ v < 10 ∧ (2500 < v ∨ v < 100)) ∧
    (CheckProbeStatus v = .OK ↔
      ¬ 3000 < v ∧ ¬ v < 10 ∧ ¬ (2500 < v ∨ v < 100)) ∧
    CheckProbeStatus 3000 ≠ .OPEN := by
  refine ⟨?_, ?_, ?_, ?_, ?_⟩ <;>
    simp only [CheckProbeStatus, PROBE_OPEN_VOLTAGE, PROBE_SHORT_VOLTAGE,
      PROBE_MAX_VOLTAGE, PROBE_MIN_VOLTAGE] <;>
    split_ifs <;> simp_all

/-- The second clamping `if` chain of `APP_Output_CalcCurrent` coincides
with `max 4 (min 20 ·)`. -/
theorem clamp_ifs_eq_max_min (c : ℚ) :
    (if (if c < 4 then (4 : ℚ) else c) > 20 then (20 : ℚ)
     else if c < 4 then (4 : ℚ) else c) = max 4 (min 20 c) := by
  rcases le_or_lt 4 c with h1 | h1
  · rw [if_neg (not_lt.mpr h1)]
    rcases le_or_lt c 20 with h2 | h2
    · rw [if_neg (not_lt.mpr h2), min_eq_right h2, max_eq_right h1]
    · rw [if_pos h2, min_eq_left (le_of_lt h2), max_eq_right (by norm_num)]
  · rw [if_pos h1, if_neg (by norm_num),
      min_eq_right (le_of_lt (lt_of_lt_of_le h1 (by norm_num))),
      max_eq_left (le_of_lt h1)]

/-- C7 counterexample: on the span `T_low = −200`, `T_high = 100` the
mapper yields 12 mA at `T = −50` (the midpoint of the span), not the
10 mA the claim asserts. -/
theorem C7_counterexample : APP_Output_CalcCurrent (-200) 100 (-50) ≠ 10 := by
  norm_num [APP_Output_CalcCurrent, OUTPUT_MIN_CURRENT, OUTPUT_MAX_CURRENT]

/-- C7 (amended): the output mapper returns
`4 + (T − T_low) / (T_high − T_low) · 16` clamped to [4, 20], returns
exactly 12 mA in the degenerate case `T_high = T_low`, and on the span
`T_low = −200`, `T_high = 100` yields 4 mA at −200, 20 mA at 100 and
12 mA (not 10 mA) at −50. -/
theorem C7_calc_current (t4 t20 T : ℚ) :
    (t20 = t4 → APP_Output_CalcCurrent t4 t20 T = 12) ∧
    (t20 ≠ t4 →
      APP_Output_CalcCurrent t4 t20 T =
        max 4 (min 20 (4 + (T - t4) / (t20 - t4) * 16))) ∧
    APP_Output_CalcCurrent (-200) 100 (-200) = 4 ∧
    APP_Output_CalcCurrent (-200) 100 100 = 20 ∧
    APP_Output_CalcCurrent (-200) 100 (-50) = 12 := by
  refine ⟨?_, ?_, by norm_num [APP_Output_CalcCurrent, OUTPUT_MIN_CURRENT, OUTPUT_MAX_CURRENT],
    by norm_num [APP_Output_CalcCurrent, OUTPUT_MIN_CURRENT, OUTPUT_MAX_CURRENT],
    by norm_num [APP_Output_CalcCurrent, OUTPUT_MIN_CURRENT, OUTPUT_MAX_CURRENT]⟩
  · intro h
    subst h
    simp [APP_Output_CalcCurrent, sub_self]
  · intro h
    have hr : t20 - t4 ≠ 0 := sub_ne_zero.mpr h
    have h16 : OUTPUT_MAX_CURRENT - OUTPUT_MIN_CURRENT = 16 := by
      norm_num [OUTPUT_MIN_CURRENT, OUTPUT_MAX_CURRENT]
    simp only [APP_Output_CalcCurrent, OUTPUT_MIN_CURRENT, OUTPUT_MAX_CURRENT] at *
    rw [if_neg hr]
    have h164 : (20 : ℚ) - 4 = 16 := by norm_num
    rw [h164]
    exact clamp_ifs_eq_max_min _

/-- Witness for C7 at a concrete degenerate input. -/
theorem C7_calc_current_witness : APP_Output_CalcCurrent 5 5 3 = 12 :=
  (C7_calc_current 5 5 3).1 rfl

/-! ## Persistent parameter store (app_param.c / app_param.h)

`UserParam_t` is modelled at the byte level: the four `float` fields are
kept as their 4 serialized (little-endian IEEE-754) bytes, because the
CRC and the load/save path only ever touch the raw bytes of the record
(`memcpy` / byte-wise CRC); the float values themselves are never
interpreted arithmetically in app_param.c. -/

/-- `PARAM_MAGIC` (app_param.h): "TMP2". -/
def PARAM_MAGIC : ℕ := 0x544D5032
/-- `PARAM_VERSION` (app_param.h): V1.0. -/
def PARAM_VERSION : ℕ := 0x0100

/-- `UserParam_t` (app_param.h), field for field.  Multi-byte scalar
fields are `ℕ` (bounded by their C width in `UserParam.WF`); the float
fields are their 4 raw bytes. -/
structure UserParam where
  magic : ℕ                  -- uint32
  version : ℕ                -- uint16
  reserved : ℕ               -- uint16
  current_source : ℕ         -- uint8
  padding : List ℕ           -- uint8[3] alignment padding
  current_adj_10uA : List ℕ  -- float (4 raw bytes)
  current_adj_17uA : List ℕ  -- float (4 raw bytes)
  temp_4mA : List ℕ          -- float (4 raw bytes)
  temp_20mA : List ℕ         -- float (4 raw bytes)
  crc : ℕ                    -- uint16
  padding2 : ℕ               -- uint16
  deriving DecidableEq, Repr

/-- Well-formedness: every field fits its C width. -/
def UserParam.WF (p : UserParam) : Prop :=
  p.magic < 2 ^ 32 ∧ p.version < 2 ^ 16 ∧ p.reserved < 2 ^ 16 ∧
  p.current_source < 2 ^ 8 ∧ p.padding.length = 3 ∧
  p.current_adj_10uA.length = 4 ∧ p.current_adj_17uA.length = 4 ∧
  p.temp_4mA.length = 4 ∧ p.temp_20mA.length = 4 ∧
  p.crc < 2 ^ 16 ∧ p.padding2 < 2 ^ 16

instance (p : UserParam) : Decidable p.WF := by
  unfold UserParam.WF; infer_instance

/-- Little-endian serialization of a 16-bit word. -/
def le16 (x : ℕ) : List ℕ := [x % 256, x / 256 % 256]

/-- Little-endian serialization of a 32-bit word. -/
def le32 (x : ℕ) : List ℕ :=
  [x % 256, x / 256 % 256, x / 65536 % 256, x / 16777216 % 256]

/-- The in-memory byte image of a `UserParam_t` on the little-endian
target: exactly the bytes `(uint8_t *)param` walks over. -/
def serializeParam (p : UserParam) : List ℕ :=
  le32 p.magic ++ le16 p.version ++ le16 p.reserved ++
  [p.current_source] ++ p.padding ++
  p.current_adj_10uA ++ p.current_adj_17uA ++ p.temp_4mA ++ p.temp_20mA ++
  le16 p.crc ++ le16 p.padding2

/-- `sizeof(UserParam_t)` = 32 bytes. -/
def sizeofUserParam : ℕ := 32

/-- `CalcParamCRC` (app_param.c): CRC16 over the struct bytes with
`len = sizeof(UserParam_t) - sizeof(uint16_t) * 2` (the comment in the
source says: without `crc` and `padding2`). -/
def CalcParamCRC (p : UserParam) : ℕ :=
  APP_Comm_CRC16 ((serializeParam p).take (sizeofUserParam - 2 * 2))

/-- Modelled from the spec (refinement reference, not source code): the
checksum as the spec and claim C2 word it — CRC16 over the serialized
record with the checksum field *and all padding bytes* (the 3 alignment
bytes after `current_source` and the 2 trailing bytes) excluded. -/
def specParamCRC (p : UserParam) : ℕ :=
  APP_Comm_CRC16 (le32 p.magic ++ le16 p.version ++ le16 p.reserved ++
    [p.current_source] ++
    p.current_adj_10uA ++ p.current_adj_17uA ++ p.temp_4mA ++ p.temp_20mA)

/-- `VerifyParam` (app_param.c). -/
def VerifyParam (p : UserParam) : ℤ :=
  if p.magic ≠ PARAM_MAGIC then -1
  else if p.version > PARAM_VERSION then -1
  else if p.crc ≠ CalcParamCRC p then -1
  else if p.current_source > 1 then -1
  else 0

/-- `APP_Param_Load` (app_param.c).  The flash read
`BSP_Flash_ReadParam` is modelled as an `Option UserParam` input (`none`
= status ≠ FLASH_OK); the in-memory record `g_param` is passed and
returned explicitly.  Returns (C return value, new `g_param`). -/
def APP_Param_Load (read : Option UserParam) (g_param : UserParam) :
    ℤ × UserParam :=
  match read with
  | none => (-1, g_param)
  | some temp_param =>
    if VerifyParam temp_param ≠ 0 then (-1, g_param)
    else (0, temp_param)

/-- A concrete well-formed record used by witnesses: default field
values of `g_param` (app_param.c initializer; float defaults 0.0f,
−200.0f and 100.0f serialized as their IEEE-754 bytes), `crc` stamped
correctly. -/
def sampleParam : UserParam :=
  let base : UserParam := {
    magic := PARAM_MAGIC
    version := PARAM_VERSION
    reserved := 0
    current_source := 0
    padding := [0, 0, 0]
    current_adj_10uA := [0, 0, 0, 0]
    current_adj_17uA := [0, 0, 0, 0]
    temp_4mA := [0x00, 0x00, 0x48, 0xC3]   -- -200.0f
    temp_20mA := [0x00, 0x00, 0xC8, 0x42]  -- 100.0f
    crc := 0
    padding2 := 0 }
  { base with crc := CalcParamCRC base }

/-! ## Theorems for the parameter store -/

/-- C2 counterexample: on the concrete record `sampleParam` the
program's stored checksum (`CalcParamCRC`, which covers the 3 alignment
padding bytes) differs from the claim's padding-free CRC. -/
theorem C2_counterexample :
    sampleParam.crc = CalcParamCRC sampleParam ∧
    CalcParamCRC sampleParam ≠ specParamCRC sampleParam := by
  constructor
  · rfl
  · decide

/-- C2 (amended): the stored checksum is the CRC16 (generator 0xA001,
reflected, seed 0xFFFF) over the first 28 bytes of the serialized
record, i.e. over every field up to and including `temp_20mA` — the 3
alignment padding bytes after the current-source selector are
*included*; only the checksum field itself and the 2 trailing padding
bytes are excluded. -/
theorem C2_param_crc_coverage (p : UserParam) (h : p.WF) :
    CalcParamCRC p =
      APP_Comm_CRC16 (le32 p.magic ++ le16 p.version ++ le16 p.reserved ++
        [p.current_source] ++ p.padding ++
        p.current_adj_10uA ++ p.current_adj_17uA ++ p.temp_4mA ++ p.temp_20mA) := by
  obtain ⟨-, -, -, -, h5, h6, h7, h8, h9, -, -⟩ := h
  unfold CalcParamCRC serializeParam sizeofUserParam
  congr 1
  rw [List.append_assoc _ (le16 p.crc), List.take_append_of_le_length]
  · rw [List.take_of_length_le]
    simp [le32, le16, h5, h6, h7, h8, h9]
  · simp [le32, le16, h5, h6, h7, h8, h9]

/-- Witness for C2 (amended) at the concrete record `sampleParam`. -/
theorem C2_param_crc_coverage_witness :
    CalcParamCRC sampleParam =
      APP_Comm_CRC16 (le32 sampleParam.magic ++ le16 sampleParam.version ++
        le16 sampleParam.reserved ++ [sampleParam.current_source] ++
        sampleParam.padding ++ sampleParam.current_adj_10uA ++
        sampleParam.current_adj_17uA ++ sampleParam.temp_4mA ++
        sampleParam.temp_20mA) :=
  C2_param_crc_coverage sampleParam (by decide)

/-- C5: `APP_Param_Load` fails (returns −1) whenever the magic tag
mismatches, the version exceeds the supported one, or the stored
checksum differs from the recomputed one; on *any* failure the
in-memory record is untouched, and on success it is replaced whole by
the stored record. -/
theorem C5_param_load (read : Option UserParam) (g : UserParam) :
    (∀ t, read = some t →
      (t.magic ≠ PARAM_MAGIC ∨ t.version > PARAM_VERSION ∨
       t.crc ≠ CalcParamCRC t) →
      APP_Param_Load read g = (-1, g)) ∧
    ((APP_Param_Load read g).1 ≠ 0 → (APP_Param_Load read g).2 = g) ∧
    ((APP_Param_Load read g).1 = 0 →
      ∃ t, read = some t ∧ VerifyParam t = 0 ∧ (APP_Param_Load read g).2 = t) := by
  refine ⟨?_, ?_, ?_⟩
  · rintro t rfl hbad
    have hv : VerifyParam t ≠ 0 := by
      unfold VerifyParam
      rcases hbad with h | h | h
      · simp [h]
      · split_ifs <;> simp_all
      · split_ifs <;> simp_all
    simp [APP_Param_Load, hv]
  · cases read with
    | none => intro _; rfl
    | some t =>
      by_cases hv : VerifyParam t ≠ 0
      · simp [APP_Param_Load, hv]
      · push_neg at hv
        simp [APP_Param_Load, hv]
  · cases read with
    | none => simp [APP_Param_Load]
    | some t =>
      by_cases hv : VerifyParam t ≠ 0
      · simp [APP_Param_Load, hv]
      · push_neg at hv
        have hload : APP_Param_Load (some t) g = (0, t) := by
          simp [APP_Param_Load, hv]
        rw [hload]
        exact fun _ => ⟨t, rfl, hv, rfl⟩

/-- Witness for C5: a record whose magic tag is wrong is rejected and
leaves the in-memory record (here `sampleParam`) unchanged. -/
theorem C5_param_load_witness :
    APP_Param_Load (some { sampleParam with magic := 0 }) sampleParam =
      (-1, sampleParam) :=
  (C5_param_load (some { sampleParam with magic := 0 }) sampleParam).1
    _ rfl (Or.inl (by decide))

/-! ## Calibration table (app_temp.c / app_temp.h)

`float` voltages and temperatures are modelled over `ℚ`; the
memory-mapped flash array `p_table_points` becomes a total index
function. -/

/-- `TEMP_SAMPLE_COUNT` (app_temp.h). -/
def TEMP_SAMPLE_COUNT : ℕ := 5
/-- `TEMP_FILTER_SIZE` (app_temp.h). -/
def TEMP_FILTER_SIZE : ℕ := 16
/-- `TEMP_TABLE_MAX_POINTS` (app_temp.h). -/
def TEMP_TABLE_MAX_POINTS : ℕ := 4871
/-- `TEMP_TABLE_MAGIC` (app_temp.h): "TBL\0". -/
def TEMP_TABLE_MAGIC : ℕ := 0x004C4254

/-- `TempTablePoint_t` (app_temp.h). -/
structure TempTablePoint where
  voltage : ℚ
  temperature : ℚ
  deriving DecidableEq, Repr

/-- The calibration-table flash region: `TempTableHeader_t` header plus
the point array `p_table_points` (modelled as a total index map, as the
C pointer arithmetic performs no bounds check). -/
structure TempTable where
  magic : ℕ        -- uint32 header magic
  point_count : ℕ  -- uint16
  points : ℕ → TempTablePoint

/-- `APP_Temp_TableVerify` (app_temp.c). -/
def APP_Temp_TableVerify (tbl : TempTable) : ℤ :=
  if tbl.magic ≠ TEMP_TABLE_MAGIC then -1
  else if tbl.point_count = 0 ∨ tbl.point_count > TEMP_TABLE_MAX_POINTS then -1
  else 0

/-- The `while (high - low > 1)` binary-search loop of
`APP_Temp_TableLookup`, written with explicit fuel so the definition is
structural; any `fuel ≥ high - low` makes it run to the loop's own exit
condition (each iteration shrinks `high - low` by at least 1), and the
wrapper passes `point_count ≥ high - low`. -/
def bsearchLoop (pts : ℕ → TempTablePoint) (voltage : ℚ) :
    ℕ → ℕ → ℕ → ℕ × ℕ
  | 0, low, high => (low, high)
  | fuel + 1, low, high =>
    if high - low > 1 then
      let mid := (low + high) / 2
      if voltage > (pts mid).voltage then
        bsearchLoop pts voltage fuel low mid
      else
        bsearchLoop pts voltage fuel mid high
    else (low, high)

/-- `APP_Temp_TableLookup` (app_temp.c): verification check, saturation
at the two table ends, then binary search plus linear interpolation. -/
def APP_Temp_TableLookup (tbl : TempTable) (voltage : ℚ) : ℚ :=
  let high := tbl.point_count - 1
  if APP_Temp_TableVerify tbl ≠ 0 then 0
  else if voltage ≥ (tbl.points 0).voltage then (tbl.points 0).temperature
  else if voltage ≤ (tbl.points high).voltage then (tbl.points high).temperature
  else
    let lh := bsearchLoop tbl.points voltage tbl.point_count 0 high
    let v0 := (tbl.points lh.1).voltage
    let v1 := (tbl.points lh.2).voltage
    let t0 := (tbl.points lh.1).temperature
    let t1 := (tbl.points lh.2).temperature
    t0 + (voltage - v0) * (t1 - t0) / (v1 - v0)

/-- The synthetic three-point table `[(100,0),(50,10),(0,20)]` from the
spec's test vector, with a valid header. -/
def sampleTable : TempTable where
  magic := TEMP_TABLE_MAGIC
  point_count := 3
  points := fun i => if i = 0 then ⟨100, 0⟩ else if i = 1 then ⟨50, 10⟩ else ⟨0, 20⟩

/-- The loop invariant of the binary search: starting from a bracketing
pair `(low, high)` with enough fuel, it returns adjacent indices that
still bracket the voltage (`(pts h).voltage < v ≤ (pts l).voltage`). -/
theorem bsearchLoop_bracket (pts : ℕ → TempTablePoint) (v : ℚ) :
    ∀ fuel low high, low < high → high - low ≤ fuel →
      (pts high).voltage < v → v ≤ (pts low).voltage →
      (bsearchLoop pts v fuel low high).2 = (bsearchLoop pts v fuel low high).1 + 1 ∧
      low ≤ (bsearchLoop pts v fuel low high).1 ∧
      (bsearchLoop pts v fuel low high).2 ≤ high ∧
      (pts (bsearchLoop pts v fuel low high).2).voltage < v ∧
      v ≤ (pts (bsearchLoop pts v fuel low high).1).voltage := by
  intro fuel
  induction fuel with
  | zero => intro low high h1 h2 _ _; omega
  | succ fuel ih =>
    intro low high h1 h2 hhi hlo
    by_cases hgap : high - low > 1
    · have hmid1 : low < (low + high) / 2 := by omega
      have hmid2 : (low + high) / 2 < high := by omega
      by_cases hcmp : v > (pts ((low + high) / 2)).voltage
      · have h' := ih low ((low + high) / 2) hmid1 (by omega) hcmp hlo
        simp only [bsearchLoop, if_pos hgap, if_pos hcmp]
        exact ⟨h'.1, h'.2.1, le_trans h'.2.2.1 (le_of_lt hmid2),
          h'.2.2.2.1, h'.2.2.2.2⟩
      · have h' := ih ((low + high) / 2) high hmid2 (by omega) hhi (not_lt.mp hcmp)
        simp only [bsearchLoop, if_pos hgap, if_neg hcmp]
        exact ⟨h'.1, le_trans (le_of_lt hmid1) h'.2.1, h'.2.2.1,
          h'.2.2.2.1, h'.2.2.2.2⟩
    · have heq : bsearchLoop pts v (fuel + 1) low high = (low, high) := by
        simp [bsearchLoop, hgap]
      rw [heq]
      exact ⟨by omega, le_refl low, le_refl high, hhi, hlo⟩

/-- Under a valid header, lookup on a voltage strictly inside the table
bounds interpolates linearly between two adjacent bracketing points. -/
theorem lookup_interior (tbl : TempTable) (v : ℚ)
    (hver : APP_Temp_TableVerify tbl = 0)
    (hfirst : v < (tbl.points 0).voltage)
    (hlast : (tbl.points (tbl.point_count - 1)).voltage < v) :
    ∃ i, i + 1 ≤ tbl.point_count - 1 ∧
      (tbl.points (i + 1)).voltage < v ∧ v ≤ (tbl.points i).voltage ∧
      APP_Temp_TableLookup tbl v =
        (tbl.points i).temperature + (v - (tbl.points i).voltage) *
          ((tbl.points (i + 1)).temperature - (tbl.points i).temperature) /
          ((tbl.points (i + 1)).voltage - (tbl.points i).voltage) := by
  have hn : 1 ≤ tbl.point_count := by
    by_contra h
    have : tbl.point_count = 0 := by omega
    simp [APP_Temp_TableVerify, this] at hver
  have hn2 : 2 ≤ tbl.point_count := by
    rcases Nat.lt_or_ge tbl.point_count 2 with h | h
    · exfalso
      have : tbl.point_count = 1 := by omega
      rw [this] at hlast
      simp at hlast
      exact absurd hfirst (not_lt.mpr (le_of_lt hlast))
    · exact h
  have hb := bsearchLoop_bracket tbl.points v tbl.point_count 0
    (tbl.point_count - 1) (by omega) (by omega) hlast (le_of_lt hfirst)
  obtain ⟨hadj, hlow, hhigh, hbr1, hbr2⟩ := hb
  refine ⟨(bsearchLoop tbl.points v tbl.point_count 0 (tbl.point_count - 1)).1,
    by omega, by rw [← hadj]; exact hbr1, hbr2, ?_⟩
  unfold APP_Temp_TableLookup
  rw [if_neg (by simp [hver]), if_neg (not_le.mpr hfirst), if_neg (not_le.mpr hlast)]
  simp only
  rw [hadj]

/-- C3: the table lookup returns 0 when verification fails, saturates
to the first point's temperature at or above the first voltage and to
the last point's temperature at or below the last voltage, linearly
interpolates between the two adjacent bracketing points found by the
binary search for interior voltages, and takes the claimed values on
the synthetic table `[(100,0),(50,10),(0,20)]`. -/
theorem C3_table_lookup :
    (∀ tbl v, APP_Temp_TableVerify tbl ≠ 0 → APP_Temp_TableLookup tbl v = 0) ∧
    (∀ tbl v, APP_Temp_TableVerify tbl = 0 → (tbl.points 0).voltage ≤ v →
      APP_Temp_TableLookup tbl v = (tbl.points 0).temperature) ∧
    (∀ tbl v, APP_Temp_TableVerify tbl = 0 → v < (tbl.points 0).voltage →
      v ≤ (tbl.points (tbl.point_count - 1)).voltage →
      APP_Temp_TableLookup tbl v = (tbl.points (tbl.point_count - 1)).temperature) ∧
    (∀ tbl v, APP_Temp_TableVerify tbl = 0 → v < (tbl.points 0).voltage →
      (tbl.points (tbl.point_count - 1)).voltage < v →
      ∃ i, i + 1 ≤ tbl.point_count - 1 ∧
        (tbl.points (i + 1)).voltage < v ∧ v ≤ (tbl.points i).voltage ∧
        APP_Temp_TableLookup tbl v =
          (tbl.points i).temperature + (v - (tbl.points i).voltage) *
            ((tbl.points (i + 1)).temperature - (tbl.points i).temperature) /
            ((tbl.points (i + 1)).voltage - (tbl.points i).voltage)) ∧
    APP_Temp_TableLookup sampleTable 75 = 5 ∧
    APP_Temp_TableLookup sampleTable 0 = 20 ∧
    APP_Temp_TableLookup sampleTable 150 = 0 := by
  refine ⟨?_, ?_, ?_, fun tbl v h1 h2 h3 => lookup_interior tbl v h1 h2 h3, ?_, ?_, ?_⟩
  · intro tbl v h
    unfold APP_Temp_TableLookup
    rw [if_pos h]
  · intro tbl v hver h
    unfold APP_Temp_TableLookup
    rw [if_neg (by simp [hver]), if_pos h]
  · intro tbl v hver h1 h2
    unfold APP_Temp_TableLookup
    rw [if_neg (by simp [hver]), if_neg (not_le.mpr h1), if_pos h2]
  · norm_num [APP_Temp_TableLookup, APP_Temp_TableVerify, sampleTable,
      TEMP_TABLE_MAGIC, TEMP_TABLE_MAX_POINTS, bsearchLoop]
  · norm_num [APP_Temp_TableLookup, APP_Temp_TableVerify, sampleTable,
      TEMP_TABLE_MAGIC, TEMP_TABLE_MAX_POINTS, bsearchLoop]
  · norm_num [APP_Temp_TableLookup, APP_Temp_TableVerify, sampleTable,
      TEMP_TABLE_MAGIC, TEMP_TABLE_MAX_POINTS, bsearchLoop]

/-- Witness for C3: the failure branch at a concrete invalid table. -/
theorem C3_table_lookup_witness :
    APP_Temp_TableLookup
      ({ magic := 0, point_count := 3, points := sampleTable.points } : TempTable)
      75 = 0 :=
  C3_table_lookup.1 _ 75 (by decide)

/-! ## Acquisition state machine (app_temp.c)

The module's static state (`g_temp` plus the sampling and filtering
buffers) is an explicit record; ADC readiness and the sampled voltage
are inputs; DAC / LCD side effects are outside the modelled state. -/

/-- `TempState_t` (app_temp.h). -/
inductive TempState where
  | IDLE
  | SAMPLING
  | FILTERING
  | CALCULATING
  | OUTPUTTING
  | ERROR
  deriving DecidableEq, Repr

/-- `TempMeasure_t` (app_temp.h). -/
structure TempMeasure where
  state : TempState
  probe_status : ProbeStatus
  current_src : ℕ       -- uint8
  running : ℕ           -- uint8 flag
  raw_voltage : ℚ
  filtered_voltage : ℚ
  temperature_K : ℚ
  temperature_C : ℚ
  sample_count : ℕ      -- uint32

/-- The static module state of app_temp.c: `g_temp` and the filter
buffers. -/
structure TempModule where
  g_temp : TempMeasure
  sample_buffer : ℕ → ℚ
  sample_index : ℕ
  filter_buffer : ℕ → ℚ
  filter_index : ℕ
  filter_count : ℕ
  filter_sum : ℚ

/-- One adjacent-swap pass of the bubble sort inside `MedianFilter`. -/
def bubblePass : List ℚ → List ℚ
  | [] => []
  | [x] => [x]
  | x :: y :: rest =>
    if x > y then y :: bubblePass (x :: rest) else x :: bubblePass (y :: rest)
termination_by l => l.length

/-- The outer loop of the bubble sort: `len − 1` passes.  (The C inner
loop stops at `len − 1 − i` because the tail is already sorted after
pass `i`; running each pass over the whole list yields the same
result.) -/
def bubbleSortPasses : ℕ → List ℚ → List ℚ
  | 0, l => l
  | n + 1, l => bubbleSortPasses n (bubblePass l)

/-- `MedianFilter` (app_temp.c): copy, bubble sort, middle element. -/
def MedianFilter (data : List ℚ) : ℚ :=
  (bubbleSortPasses (data.length - 1) data).getD (data.length / 2) 0

/-- `MovingAvgFilter` (app_temp.c) as a state transformer on the
filter buffers; returns the new module state and the average. -/
def MovingAvgFilter (m : TempModule) (value : ℚ) : TempModule × ℚ :=
  let sum := m.filter_sum - m.filter_buffer m.filter_index
  let buf := Function.update m.filter_buffer m.filter_index value
  let sum := sum + value
  let idx := (m.filter_index + 1) % TEMP_FILTER_SIZE
  let cnt := if m.filter_count < TEMP_FILTER_SIZE then m.filter_count + 1
             else m.filter_count
  ({ m with filter_buffer := buf, filter_index := idx,
            filter_count := cnt, filter_sum := sum },
   sum / (cnt : ℚ))

/-- `Kelvin_to_Celsius` (app_temp.c). -/
def Kelvin_to_Celsius (kelvin : ℚ) : ℚ := kelvin - 273.15

/-- `APP_Temp_Start` (app_temp.c): unconditionally sets `running` and
enters `SAMPLING` (the ADC conversion start is a hardware side
effect). -/
def APP_Temp_Start (m : TempModule) : TempModule :=
  { m with g_temp := { m.g_temp with running := 1, state := .SAMPLING },
           sample_index := 0 }

/-- `APP_Temp_Stop` (app_temp.c). -/
def APP_Temp_Stop (m : TempModule) : TempModule :=
  { m with g_temp := { m.g_temp with running := 0, state := .IDLE } }

/-- `APP_Temp_SetCurrentSource` (app_temp.c); the DAC and LCD updates
are side effects outside the modelled state. -/
def APP_Temp_SetCurrentSource (m : TempModule) (src : ℕ) : TempModule :=
  { m with g_temp := { m.g_temp with current_src := src } }

/-- `APP_Temp_Process` (app_temp.c): one main-loop iteration.  Inputs:
the calibration table region, the ADC ready flag and the voltage an
ADC read would return.  LCD status strings and the 4–20 mA output
update are side effects outside the modelled state. -/
def APP_Temp_Process (tbl : TempTable) (adc_ready : Bool) (adc_voltage : ℚ)
    (m : TempModule) : TempModule :=
  if m.g_temp.running = 0 then m
  else
    match m.g_temp.state with
    | .SAMPLING =>
      if adc_ready then
        let raw := adc_voltage
        let buf := Function.update m.sample_buffer m.sample_index raw
        let idx := m.sample_index + 1
        if idx ≥ TEMP_SAMPLE_COUNT then
          { m with g_temp := { m.g_temp with raw_voltage := raw, state := .FILTERING },
                   sample_buffer := buf, sample_index := 0 }
        else
          { m with g_temp := { m.g_temp with raw_voltage := raw },
                   sample_buffer := buf, sample_index := idx }
      else m
    | .FILTERING =>
      let median_value :=
        MedianFilter ((List.range TEMP_SAMPLE_COUNT).map m.sample_buffer)
      let mf := MovingAvgFilter m median_value
      { mf.1 with g_temp := { mf.1.g_temp with
          filtered_voltage := mf.2,
          probe_status := CheckProbeStatus mf.2,
          state := .CALCULATING } }
    | .CALCULATING =>
      if m.g_temp.probe_status = .OK then
        let tK := APP_Temp_TableLookup tbl m.g_temp.filtered_voltage
        { m with g_temp := { m.g_temp with
            temperature_K := tK,
            temperature_C := Kelvin_to_Celsius tK,
            state := .OUTPUTTING } }
      else
        { m with g_temp := { m.g_temp with state := .OUTPUTTING } }
    | .OUTPUTTING =>
      { m with g_temp := { m.g_temp with
          sample_count := (m.g_temp.sample_count + 1) % 2 ^ 32,
          state := .SAMPLING } }
    | .ERROR => m
    | .IDLE => { m with g_temp := { m.g_temp with state := .IDLE } }

/-- A concrete module state sitting in the terminal `ERROR` phase (as
left by `APP_Temp_Init` when table verification fails). -/
def errorModule : TempModule where
  g_temp := { state := .ERROR, probe_status := .OK, current_src := 0,
              running := 0, raw_voltage := 0, filtered_voltage := 0,
              temperature_K := 0, temperature_C := 0, sample_count := 0 }
  sample_buffer := fun _ => 0
  sample_index := 0
  filter_buffer := fun _ => 0
  filter_index := 0
  filter_count := 0
  filter_sum := 0

/-! ## Theorems for the acquisition state machine -/

/-- C1 counterexample: from the terminal `ERROR` phase, the
start-acquisition operation *does* move the machine to `SAMPLING` —
`APP_Temp_Start` assigns the phase unconditionally, so re-initialization
is not the only exit from `ERROR`. -/
theorem C1_counterexample :
    errorModule.g_temp.state = .ERROR ∧
    (APP_Temp_Start errorModule).g_temp.state = .SAMPLING := by
  constructor <;> rfl

/-- C1 (amended): a `process()` step never leaves the `ERROR` phase and
`set_current_source` never changes the phase at all; but the
start-acquisition and stop-acquisition commands overwrite the phase
unconditionally (to `SAMPLING` resp. `IDLE`), including from `ERROR`. -/
theorem C1_error_phase (tbl : TempTable) (adc_ready : Bool) (adc_voltage : ℚ)
    (m : TempModule) (src : ℕ) (h : m.g_temp.state = .ERROR) :
    (APP_Temp_Process tbl adc_ready adc_voltage m).g_temp.state = .ERROR ∧
    (APP_Temp_SetCurrentSource m src).g_temp.state = .ERROR ∧
    (APP_Temp_Start m).g_temp.state = .SAMPLING ∧
    (APP_Temp_Stop m).g_temp.state = .IDLE := by
  refine ⟨?_, by simp [APP_Temp_SetCurrentSource, h], rfl, rfl⟩
  unfold APP_Temp_Process
  by_cases hr : m.g_temp.running = 0
  · rw [if_pos hr, h]
  · rw [if_neg hr, h]
    exact h

/-- Witness for C1 (amended) at the concrete `ERROR`-phase module
state. -/
theorem C1_error_phase_witness :
    (APP_Temp_Process sampleTable true 42 errorModule).g_temp.state = .ERROR ∧
    (APP_Temp_SetCurrentSource errorModule 1).g_temp.state = .ERROR ∧
    (APP_Temp_Start errorModule).g_temp.state = .SAMPLING ∧
    (APP_Temp_Stop errorModule).g_temp.state = .IDLE :=
  C1_error_phase sampleTable true 42 errorModule 1 rfl

/-! ## Protocol engine (app_comm.c / app_comm.h) -/

/-- `FRAME_HEAD` (app_comm.h). -/
def FRAME_HEAD : ℕ := 0xAA
/-- `FRAME_TAIL` (app_comm.h). -/
def FRAME_TAIL : ℕ := 0x55
/-- `MAX_DATA_LEN` (app_comm.h): capacity of `Frame_t.data`. -/
def MAX_DATA_LEN : ℕ := 256

/-- Command codes (app_comm.h). -/
def CMD_GET_DEVICE_ID : ℕ := 0x01
def CMD_GET_TEMPERATURE : ℕ := 0x02
def CMD_GET_VOLTAGE : ℕ := 0x03
def CMD_GET_CURRENT : ℕ := 0x04
def CMD_GET_STATUS : ℕ := 0x05
def CMD_SET_CURRENT_SRC : ℕ := 0x10
def CMD_SET_CURRENT_ADJ_10 : ℕ := 0x11
def CMD_SET_CURRENT_ADJ_17 : ℕ := 0x12
def CMD_SET_4MA_TEMP : ℕ := 0x20
def CMD_SET_20MA_TEMP : ℕ := 0x21
def CMD_START_ACQ : ℕ := 0x30
def CMD_STOP_ACQ : ℕ := 0x31
def CMD_SAVE_PARAM : ℕ := 0x50
def CMD_LOAD_PARAM : ℕ := 0x51
def CMD_RESET_DEFAULT : ℕ := 0x52
def CMD_ACK : ℕ := 0x80
def CMD_DATA_REPORT : ℕ := 0xF0

/-- Status codes (app_comm.h). -/
def STATUS_OK : ℕ := 0x00
def STATUS_INVALID_CMD : ℕ := 0x01
def STATUS_INVALID_PARAM : ℕ := 0x02
def STATUS_CRC_ERROR : ℕ := 0x03
def STATUS_FLASH_ERROR : ℕ := 0x05

/-- `ParseState_t` (app_comm.h). -/
inductive ParseState where
  | PARSE_HEAD
  | PARSE_CMD
  | PARSE_LEN
  | PARSE_DATA
  | PARSE_CRC_L
  | PARSE_CRC_H
  | PARSE_TAIL
  deriving DecidableEq, Repr

/-- The static parser state of app_comm.c: `parse_state`, the receive
frame `rx_frame` (its `data` array as a total map over the 256-byte
buffer) and `data_index`. -/
structure CommModule where
  parse_state : ParseState
  rx_head : ℕ
  rx_cmd : ℕ
  rx_len : ℕ
  rx_data : ℕ → ℕ
  rx_crc : ℕ
  data_index : ℕ

/-- The parser state after `APP_Comm_Init` (statics zero-initialized). -/
def initCommModule : CommModule where
  parse_state := .PARSE_HEAD
  rx_head := 0
  rx_cmd := 0
  rx_len := 0
  rx_data := fun _ => 0
  rx_crc := 0
  data_index := 0

/-- Observable outcome of one `ParseByte` step: either `ProcessFrame`
was invoked on a CRC-valid frame (recording the frame fields as
dispatched), or a CRC-error acknowledgment was sent. -/
inductive CommEvent where
  | frame (cmd len : ℕ) (payload : List ℕ)
  | crcAck (cmd : ℕ)
  deriving DecidableEq, Repr

/-- `ParseByte` (app_comm.c): the 7-state frame parser, one input
byte. -/
def ParseByte (m : CommModule) (b : ℕ) : CommModule × Option CommEvent :=
  match m.parse_state with
  | .PARSE_HEAD =>
    if b = FRAME_HEAD then
      ({ m with rx_head := b, parse_state := .PARSE_CMD }, none)
    else (m, none)
  | .PARSE_CMD => ({ m with rx_cmd := b, parse_state := .PARSE_LEN }, none)
  | .PARSE_LEN =>
    if b > 0 then
      ({ m with rx_len := b, data_index := 0, parse_state := .PARSE_DATA }, none)
    else
      ({ m with rx_len := b, data_index := 0, parse_state := .PARSE_CRC_L }, none)
  | .PARSE_DATA =>
    let m1 := { m with rx_data := Function.update m.rx_data m.data_index b,
                       data_index := m.data_index + 1 }
    if m1.data_index ≥ m1.rx_len then
      ({ m1 with parse_state := .PARSE_CRC_L }, none)
    else (m1, none)
  | .PARSE_CRC_L => ({ m with rx_crc := b, parse_state := .PARSE_CRC_H }, none)
  | .PARSE_CRC_H =>
    ({ m with rx_crc := m.rx_crc ||| (b <<< 8), parse_state := .PARSE_TAIL }, none)
  | .PARSE_TAIL =>
    if b = FRAME_TAIL then
      let payload := (List.range m.rx_len).map m.rx_data
      let calc_crc := APP_Comm_CRC16 (m.rx_cmd :: m.rx_len :: payload)
      if calc_crc = m.rx_crc then
        ({ m with parse_state := .PARSE_HEAD },
         some (.frame m.rx_cmd m.rx_len payload))
      else
        ({ m with parse_state := .PARSE_HEAD }, some (.crcAck m.rx_cmd))
    else ({ m with parse_state := .PARSE_HEAD }, none)

/-- The byte-drain loop of `APP_Comm_Process`: feed a byte list through
`ParseByte`, collecting the emitted events in order. -/
def APP_Comm_ProcessBytes (m : CommModule) : List ℕ → CommModule × List CommEvent
  | [] => (m, [])
  | b :: rest =>
    let step := ParseByte m b
    let rec_result := APP_Comm_ProcessBytes step.1 rest
    (rec_result.1, step.2.toList ++ rec_result.2)

/-- `APP_Comm_SendData` (app_comm.c): the encoded response frame as the
byte list handed to `SVC_USB_Transmit` — head, cmd, len, `len` payload
bytes, CRC16 over cmd+len+payload in little-endian order, tail. -/
def APP_Comm_SendData (cmd : ℕ) (data : List ℕ) (len : ℕ) : List ℕ :=
  let body := cmd :: len :: data.take len
  let crc := APP_Comm_CRC16 body
  FRAME_HEAD :: body ++ [crc &&& 0xFF, (crc >>> 8) &&& 0xFF, FRAME_TAIL]

/-- The parser safety invariant: while collecting payload bytes the
write index stays strictly below the declared length, which itself fits
in the length byte (≤ 255 < 256 = buffer capacity). -/
def ParserInv (m : CommModule) : Prop :=
  (m.parse_state = .PARSE_DATA → m.data_index < m.rx_len) ∧ m.rx_len ≤ 255

instance (m : CommModule) : Decidable (ParserInv m) := by
  unfold ParserInv; infer_instance

/-- One `ParseByte` step on a byte preserves the parser invariant. -/
theorem ParseByte_preserves_inv (m : CommModule) (b : ℕ) (hm : ParserInv m)
    (hb : b < 256) : ParserInv (ParseByte m b).1 := by
  obtain ⟨hdata, hlen⟩ := hm
  unfold ParseByte
  cases hst : m.parse_state <;>
    simp only [ParserInv] <;> try exact ⟨by intro h; simp at h, hlen⟩
  · -- PARSE_HEAD
    by_cases hh : b = FRAME_HEAD
    · simp [hh, hlen]
    · simpa [hh] using ⟨hdata, hlen⟩
  · -- PARSE_LEN
    by_cases hpos : b > 0 <;> simp [hpos, hlen] <;> omega
  · -- PARSE_DATA
    have hidx := hdata hst
    by_cases hfull : m.data_index + 1 ≥ m.rx_len <;> simp [hfull, hlen] <;> omega
  · -- PARSE_TAIL
    by_cases ht : b = FRAME_TAIL
    · simp only [ht, if_pos rfl]
      by_cases hc : APP_Comm_CRC16 (m.rx_cmd :: m.rx_len ::
          (List.range m.rx_len).map m.rx_data) = m.rx_crc <;>
        simp [hc, hlen]
    · simp [ht, hlen]

/-- The invariant holds in every state reachable from the initial
parser state. -/
theorem processBytes_inv (bytes : List ℕ) :
    ∀ m, ParserInv m → (∀ b ∈ bytes, b < 256) →
      ParserInv (APP_Comm_ProcessBytes m bytes).1 := by
  induction bytes with
  | nil => intro m hm _; exact hm
  | cons b rest ih =>
    intro m hm hb
    have h1 := ParseByte_preserves_inv m b hm (hb b (List.mem_cons_self b rest))
    have h2 := ih (ParseByte m b).1 h1 (fun x hx => hb x (List.mem_cons_of_mem b hx))
    simpa [APP_Comm_ProcessBytes] using h2

/-- C10: for every byte stream, all parser states reached from the
initial state keep the payload write index strictly below the declared
length; the declared length, read from a single byte, is at most 255,
below the 256-entry buffer capacity — and the only step that writes
into the payload buffer (the `PARSE_DATA` step) therefore writes at an
index `< rx_len ≤ 255 < MAX_DATA_LEN`. -/
theorem C10_parser_write_bounds (bytes : List ℕ) (m : CommModule) (b : ℕ)
    (hbytes : ∀ x ∈ bytes, x < 256) (hm : ParserInv m) (hb : b < 256) :
    ParserInv (APP_Comm_ProcessBytes initCommModule bytes).1 ∧
    ParserInv (ParseByte m b).1 ∧
    (m.parse_state = .PARSE_DATA →
      m.data_index < m.rx_len ∧ m.rx_len ≤ 255 ∧ m.rx_len < MAX_DATA_LEN) :=
  ⟨processBytes_inv bytes initCommModule (by decide) hbytes,
   ParseByte_preserves_inv m b hm hb,
   fun h => ⟨hm.1 h, hm.2, lt_of_le_of_lt hm.2 (by norm_num [MAX_DATA_LEN])⟩⟩

/-- A concrete parser state in the middle of a 2-byte payload. -/
def midDataModule : CommModule :=
  { initCommModule with parse_state := .PARSE_DATA, rx_len := 2, data_index := 1 }

/-- Witness for C10 on a concrete byte stream (a frame prefix) and a
concrete mid-payload parser state. -/
theorem C10_parser_write_bounds_witness :
    ParserInv (APP_Comm_ProcessBytes initCommModule [0xAA, 0x01, 0x02, 0x07]).1 ∧
    ParserInv (ParseByte midDataModule 0x07).1 ∧
    (midDataModule.parse_state = .PARSE_DATA →
      midDataModule.data_index < midDataModule.rx_len ∧
      midDataModule.rx_len ≤ 255 ∧ midDataModule.rx_len < MAX_DATA_LEN) :=
  C10_parser_write_bounds [0xAA, 0x01, 0x02, 0x07] midDataModule
    0x07 (by decide) (by decide) (by decide)

/-! ## Encode/decode round trip (C8) -/

/-- `crc16Bit` keeps the CRC inside 16 bits. -/
theorem crc16Bit_lt (crc : ℕ) (h : crc < 2 ^ 16) : crc16Bit crc < 2 ^ 16 := by
  unfold crc16Bit
  have hs : crc >>> 1 < 2 ^ 16 := by
    rw [Nat.shiftRight_eq_div_pow]
    exact lt_of_le_of_lt (Nat.div_le_self _ _) h
  split_ifs
  · exact Nat.xor_lt_two_pow hs (by norm_num)
  · exact hs

/-- Iterating `crc16Bit` keeps the CRC inside 16 bits. -/
theorem crc16Bit_iterate_lt (n : ℕ) :
    ∀ crc, crc < 2 ^ 16 → crc16Bit^[n] crc < 2 ^ 16 := by
  induction n with
  | zero => intro crc h; exact h
  | succ n ih =>
    intro crc h
    rw [Function.iterate_succ_apply]
    exact ih _ (crc16Bit_lt crc h)

/-- `crc16Byte` keeps the CRC inside 16 bits when fed a byte. -/
theorem crc16Byte_lt (crc b : ℕ) (hc : crc < 2 ^ 16) (hb : b < 256) :
    crc16Byte crc b < 2 ^ 16 :=
  crc16Bit_iterate_lt 8 _ (Nat.xor_lt_two_pow hc (lt_trans hb (by norm_num)))

/-- The CRC16 of a byte list fits in 16 bits. -/
theorem APP_Comm_CRC16_lt (data : List ℕ) (hd : ∀ b ∈ data, b < 256) :
    APP_Comm_CRC16 data < 2 ^ 16 := by
  unfold APP_Comm_CRC16
  have : ∀ (l : List ℕ), (∀ b ∈ l, b < 256) → ∀ init, init < 2 ^ 16 →
      l.foldl crc16Byte init < 2 ^ 16 := by
    intro l
    induction l with
    | nil => intro _ init h; exact h
    | cons b bs ih =>
      intro hl init h
      exact ih (fun x hx => hl x (List.mem_cons_of_mem b hx)) _
        (crc16Byte_lt init b h (hl b (List.mem_cons_self b bs)))
  exact this data hd 0xFFFF (by norm_num)

/-- Splitting a 16-bit word into its low and high bytes as the encoder
does and reassembling them as the parser does is the identity. -/
theorem crc_bytes_reassemble (c : ℕ) (h : c < 2 ^ 16) :
    (c &&& 0xFF) ||| (((c >>> 8) &&& 0xFF) <<< 8) = c := by
  apply Nat.eq_of_testBit_eq
  intro i
  have h255 : (0xFF : ℕ) = 2 ^ 8 - 1 := by norm_num
  simp only [Nat.testBit_or, Nat.testBit_and, Nat.testBit_shiftLeft,
    Nat.testBit_shiftRight, h255, Nat.testBit_two_pow_sub_one]
  rcases Nat.lt_or_ge i 8 with h8 | h8
  · have : ¬ 8 ≤ i := by omega
    simp [h8, this]
  · have hi8 : 8 + (i - 8) = i := by omega
    have h1 : ¬ i < 8 := by omega
    rcases Nat.lt_or_ge i 16 with h16 | h16
    · have h2 : i - 8 < 8 := by omega
      simp [h1, h8, h2, hi8]
    · have hc : c.testBit i = false :=
        Nat.testBit_lt_two_pow (lt_of_lt_of_le h (Nat.pow_le_pow_right (by norm_num) h16))
      have hc2 : c.testBit (8 + (i - 8)) = false := by rw [hi8]; exact hc
      simp [h1, h8, hc, hc2]

/-- `APP_Comm_ProcessBytes` splits over list concatenation. -/
theorem processBytes_append (xs ys : List ℕ) : ∀ m : CommModule,
    APP_Comm_ProcessBytes m (xs ++ ys) =
      ((APP_Comm_ProcessBytes (APP_Comm_ProcessBytes m xs).1 ys).1,
       (APP_Comm_ProcessBytes m xs).2 ++
         (APP_Comm_ProcessBytes (APP_Comm_ProcessBytes m xs).1 ys).2) := by
  induction xs with
  | nil => intro m; simp [APP_Comm_ProcessBytes]
  | cons b bs ih =>
    intro m
    have h := ih (ParseByte m b).1
    simp only [List.cons_append, APP_Comm_ProcessBytes, List.append_eq] at h ⊢
    rw [h]
    simp [List.append_assoc]

/-- Sequential writes into the payload buffer, as `PARSE_DATA` performs
them. -/
def writeSeq (buf : ℕ → ℕ) (i : ℕ) : List ℕ → (ℕ → ℕ)
  | [] => buf
  | b :: bs => writeSeq (Function.update buf i b) (i + 1) bs

/-- Pointwise description of `writeSeq`. -/
theorem writeSeq_apply (payload : List ℕ) : ∀ (buf : ℕ → ℕ) (i k : ℕ),
    writeSeq buf i payload k =
      if i ≤ k ∧ k < i + payload.length then payload.getD (k - i) 0 else buf k := by
  induction payload with
  | nil =>
    intro buf i k
    rw [writeSeq, if_neg]
    rintro ⟨h1, h2⟩
    simp at h2
    omega
  | cons b bs ih =>
    intro buf i k
    rw [writeSeq, ih]
    by_cases hk : i ≤ k ∧ k < i + (b :: bs).length
    · rw [if_pos hk]
      by_cases hk1 : i + 1 ≤ k ∧ k < i + 1 + bs.length
      · rw [if_pos hk1]
        have : k - i = (k - (i + 1)) + 1 := by omega
        rw [this, List.getD_cons_succ]
      · have hki : k = i := by
          simp at hk hk1
          omega
        rw [if_neg hk1, hki]
        simp [Function.update]
    · rw [if_neg hk]
      have hk1 : ¬ (i + 1 ≤ k ∧ k < i + 1 + bs.length) := by
        simp at hk ⊢
        omega
      rw [if_neg hk1]
      have : k ≠ i := by
        intro h
        exact hk ⟨le_of_eq h.symm, by simp [h]⟩
      simp [Function.update, this]

/-- Reading the written payload back out of the buffer. -/
theorem writeSeq_readback (payload : List ℕ) (buf : ℕ → ℕ) :
    (List.range payload.length).map (writeSeq buf 0 payload) = payload := by
  apply List.ext_getElem (by simp)
  intro i h1 h2
  simp only [List.getElem_map, List.getElem_range]
  rw [writeSeq_apply]
  rw [if_pos ⟨Nat.zero_le i, by simpa using h2⟩]
  simp [List.getD_eq_getElem?_getD, List.getElem?_eq_getElem h2]

/-- Running the parser over a whole payload from the `PARSE_DATA` state
(write index at the start, declared length equal to the remaining
bytes) writes the payload sequentially and ends in `PARSE_CRC_L` with
no event. -/
theorem processBytes_data (payload : List ℕ) : ∀ m : CommModule,
    m.parse_state = .PARSE_DATA →
    payload ≠ [] →
    m.data_index + payload.length = m.rx_len →
    APP_Comm_ProcessBytes m payload =
      ({ m with rx_data := writeSeq m.rx_data m.data_index payload,
                data_index := m.rx_len,
                parse_state := .PARSE_CRC_L }, []) := by
  induction payload with
  | nil => intro m _ hne _; exact absurd rfl hne
  | cons b bs ih =>
    intro m hst hne hsum
    by_cases hbs : bs = []
    · subst hbs
      have hidx : m.data_index + 1 = m.rx_len := by simpa using hsum
      simp [APP_Comm_ProcessBytes, ParseByte, hst, hidx, writeSeq, le_refl]
    · have hlen1 : 1 ≤ bs.length := List.length_pos.mpr hbs
      have hlt : ¬ m.data_index + 1 ≥ m.rx_len := by
        simp only [List.length_cons] at hsum
        omega
      have hstep : ParseByte m b =
          ({ m with rx_data := Function.update m.rx_data m.data_index b,
                    data_index := m.data_index + 1,
                    parse_state := .PARSE_DATA }, none) := by
        simp [ParseByte, hst, hlt]
      have hrec := ih { m with rx_data := Function.update m.rx_data m.data_index b,
                               data_index := m.data_index + 1,
                               parse_state := .PARSE_DATA }
        rfl hbs (by simp only [List.length_cons] at hsum ⊢; omega)
      dsimp only at hrec
      rw [APP_Comm_ProcessBytes, hstep]
      dsimp only
      rw [hrec, writeSeq]
      simp

/-- Feeding the length byte and the payload from the `PARSE_LEN` state
ends in `PARSE_CRC_L` with the payload stored and no event. -/
theorem processBytes_len_payload (payload : List ℕ) (m : CommModule)
    (hst : m.parse_state = .PARSE_LEN) :
    APP_Comm_ProcessBytes m (payload.length :: payload) =
      ({ m with rx_len := payload.length, data_index := payload.length,
                rx_data := writeSeq m.rx_data 0 payload,
                parse_state := .PARSE_CRC_L }, []) := by
  cases hp : payload with
  | nil => simp [APP_Comm_ProcessBytes, ParseByte, hst, writeSeq]
  | cons b bs =>
    have hpos : (b :: bs).length > 0 := by simp
    have hstep : ParseByte m (b :: bs).length =
        ({ m with rx_len := (b :: bs).length, data_index := 0,
                  parse_state := .PARSE_DATA }, none) := by
      simp [ParseByte, hst, hpos]
    have hrec := processBytes_data (b :: bs)
      { m with rx_len := (b :: bs).length, data_index := 0,
               parse_state := .PARSE_DATA }
      rfl (by simp) (by simp)
    dsimp only at hrec
    rw [APP_Comm_ProcessBytes, hstep]
    dsimp only
    rw [hrec]
    simp

/-- Feeding the two CRC bytes (as the encoder splits them) and the tail
byte from the `PARSE_CRC_L` state reassembles the CRC, validates it,
and dispatches exactly one frame. -/
theorem processBytes_crc_tail (m : CommModule) (c : ℕ)
    (hst : m.parse_state = .PARSE_CRC_L) (hc : c < 2 ^ 16)
    (hcrc : APP_Comm_CRC16 (m.rx_cmd :: m.rx_len ::
      (List.range m.rx_len).map m.rx_data) = c) :
    APP_Comm_ProcessBytes m [c &&& 0xFF, (c >>> 8) &&& 0xFF, FRAME_TAIL] =
      ({ m with rx_crc := c, parse_state := .PARSE_HEAD },
       [CommEvent.frame m.rx_cmd m.rx_len ((List.range m.rx_len).map m.rx_data)]) := by
  have hre : (c &&& 0xFF) ||| (((c >>> 8) &&& 0xFF) <<< 8) = c :=
    crc_bytes_reassemble c hc
  simp [APP_Comm_ProcessBytes, ParseByte, hst, hre, hcrc]

/-- C8: encoding a response frame with `APP_Comm_SendData` and feeding
its bytes one at a time into the parser from the head-seek state yields
exactly one validated frame carrying the same command code, length and
payload, and returns the parser to the head-seek state. -/
theorem C8_encode_decode_roundtrip (m : CommModule) (cmd : ℕ) (payload : List ℕ)
    (hstate : m.parse_state = .PARSE_HEAD)
    (hcmd : cmd < 256) (hlen : payload.length ≤ 255)
    (hbytes : ∀ b ∈ payload, b < 256) :
    (APP_Comm_ProcessBytes m (APP_Comm_SendData cmd payload payload.length)).2 =
      [CommEvent.frame cmd payload.length payload] ∧
    (APP_Comm_ProcessBytes m
      (APP_Comm_SendData cmd payload payload.length)).1.parse_state =
      .PARSE_HEAD := by
  set c := APP_Comm_CRC16 (cmd :: payload.length :: payload) with hcdef
  have hc16 : c < 2 ^ 16 := by
    apply APP_Comm_CRC16_lt
    intro b hb
    simp only [List.mem_cons] at hb
    rcases hb with rfl | rfl | hb
    · exact hcmd
    · omega
    · exact hbytes b hb
  have henc : APP_Comm_SendData cmd payload payload.length =
      [FRAME_HEAD, cmd] ++ (payload.length :: payload) ++
      [c &&& 0xFF, (c >>> 8) &&& 0xFF, FRAME_TAIL] := by
    simp [APP_Comm_SendData, List.take_length, hcdef]
  have hm2 : APP_Comm_ProcessBytes m [FRAME_HEAD, cmd] =
      ({ m with rx_head := FRAME_HEAD, rx_cmd := cmd, parse_state := .PARSE_LEN },
       []) := by
    simp [APP_Comm_ProcessBytes, ParseByte, hstate]
  have hm3 := processBytes_len_payload payload
    { m with rx_head := FRAME_HEAD, rx_cmd := cmd, parse_state := .PARSE_LEN } rfl
  have hread : (List.range payload.length).map (writeSeq m.rx_data 0 payload) =
      payload := writeSeq_readback payload m.rx_data
  have hm4 := processBytes_crc_tail
    { m with rx_head := FRAME_HEAD, rx_cmd := cmd, rx_len := payload.length,
             data_index := payload.length,
             rx_data := writeSeq m.rx_data 0 payload,
             parse_state := .PARSE_CRC_L }
    c rfl hc16 (by simpa [hread] using hcdef.symm)
  rw [henc, processBytes_append, processBytes_append, hm2]
  simp only at hm3 hm4 ⊢
  rw [hm3]
  simp only at hm4 ⊢
  rw [hm4]
  simp [hread]

/-- Witness for C8 on a concrete two-byte payload. -/
theorem C8_encode_decode_roundtrip_witness :
    (APP_Comm_ProcessBytes initCommModule
      (APP_Comm_SendData 0x02 [0x10, 0x20] 2)).2 =
      [CommEvent.frame 0x02 2 [0x10, 0x20]] ∧
    (APP_Comm_ProcessBytes initCommModule
      (APP_Comm_SendData 0x02 [0x10, 0x20] 2)).1.parse_state = .PARSE_HEAD :=
  C8_encode_decode_roundtrip initCommModule 0x02 [0x10, 0x20] rfl
    (by decide) (by decide) (by decide)

/-! ## Command dispatch (app_comm.c, ProcessFrame)

The dispatcher touches the parameter store, the output mapper and the
acquisition module; the four `float` payloads travel through `memcpy`
as raw bytes, so the IEEE-754 byte↔value correspondence is abstracted
as a codec parameter. -/

/-- `OutputConfig_t` (app_output.c, `g_output`). -/
structure OutputConfig where
  temp_4mA : ℚ
  temp_20mA : ℚ
  current_mA : ℚ
  deriving DecidableEq, Repr

/-- The IEEE-754 single-precision byte↔value correspondence used by the
C `memcpy` reinterpretations: `enc` yields the 4 little-endian bytes of
a float value, `dec` the value carried by 4 bytes.  The bit-level float
format itself is outside the exact rational model, so it is a
parameter. -/
structure FloatCodec where
  enc : ℚ → List ℕ
  dec : List ℕ → ℚ

/-- `APP_Param_SetCurrentSource` (app_param.c): out-of-range selectors
are silently ignored. -/
def APP_Param_SetCurrentSource (p : UserParam) (src : ℕ) : UserParam :=
  if src ≤ 1 then { p with current_source := src } else p

/-- `APP_Param_SetCurrentAdj10` (app_param.c): clamp to ±1 µA, then
store (as the float's raw bytes). -/
def APP_Param_SetCurrentAdj10 (fc : FloatCodec) (p : UserParam) (adj : ℚ) :
    UserParam :=
  let adj := if adj > 1 then 1 else adj
  let adj := if adj < -1 then -1 else adj
  { p with current_adj_10uA := fc.enc adj }

/-- `APP_Param_SetCurrentAdj17` (app_param.c). -/
def APP_Param_SetCurrentAdj17 (fc : FloatCodec) (p : UserParam) (adj : ℚ) :
    UserParam :=
  let adj := if adj > 1 then 1 else adj
  let adj := if adj < -1 then -1 else adj
  { p with current_adj_17uA := fc.enc adj }

/-- `APP_Param_Set4mATemp` (app_param.c). -/
def APP_Param_Set4mATemp (fc : FloatCodec) (p : UserParam) (temp : ℚ) :
    UserParam :=
  { p with temp_4mA := fc.enc temp }

/-- `APP_Param_Set20mATemp` (app_param.c). -/
def APP_Param_Set20mATemp (fc : FloatCodec) (p : UserParam) (temp : ℚ) :
    UserParam :=
  { p with temp_20mA := fc.enc temp }

/-- `APP_Param_SetDefault` (app_param.c): built-in defaults
(`DEFAULT_*` in app_param.h) plus a freshly computed checksum; the
padding bytes are not assigned. -/
def APP_Param_SetDefault (fc : FloatCodec) (p : UserParam) : UserParam :=
  let p := { p with magic := PARAM_MAGIC, version := PARAM_VERSION,
                    reserved := 0, current_source := 0,
                    current_adj_10uA := fc.enc 0, current_adj_17uA := fc.enc 0,
                    temp_4mA := fc.enc (-200), temp_20mA := fc.enc 100 }
  { p with crc := CalcParamCRC p }

/-- `APP_Param_Save` (app_param.c): stamp the CRC, then erase and
write; the two flash primitives' outcomes are Boolean inputs.  Returns
(C return value, new in-memory record). -/
def APP_Param_Save (eraseOk writeOk : Bool) (p : UserParam) : ℤ × UserParam :=
  let p := { p with crc := CalcParamCRC p }
  if ¬ eraseOk then (-1, p)
  else if ¬ writeOk then (-1, p)
  else (0, p)

/-- `APP_Output_Set4mATemp` (app_output.c). -/
def APP_Output_Set4mATemp (o : OutputConfig) (t : ℚ) : OutputConfig :=
  { o with temp_4mA := t }

/-- `APP_Output_Set20mATemp` (app_output.c). -/
def APP_Output_Set20mATemp (o : OutputConfig) (t : ℚ) : OutputConfig :=
  { o with temp_20mA := t }

/-- `APP_Output_UpdateCurrent` (app_output.c): compute and latch the
new output current (DAC/LCD side effects outside the model). -/
def APP_Output_UpdateCurrent (o : OutputConfig) (t : ℚ) : OutputConfig :=
  { o with current_mA := APP_Output_CalcCurrent o.temp_4mA o.temp_20mA t }

/-- The application state a dispatched command can reach. -/
structure AppState where
  param : UserParam
  output : OutputConfig
  temp : TempModule

/-- `Frame_t` as handed to `ProcessFrame` (head/tail/CRC already
consumed by the parser). -/
structure Frame where
  cmd : ℕ
  len : ℕ
  data : ℕ → ℕ

/-- A response emitted by the dispatcher: an acknowledgment
(`APP_Comm_SendAck cmd status`) or a data frame
(`APP_Comm_SendData cmd payload len`). -/
inductive Resp where
  | ack (cmd status : ℕ)
  | dataResp (cmd : ℕ) (payload : List ℕ)
  deriving DecidableEq, Repr

/-- `device_id` (app_comm.c): the 16 bytes of `"TM02-00000001"` plus
NUL padding. -/
def device_id : List ℕ :=
  [0x54, 0x4D, 0x30, 0x32, 0x2D, 0x30, 0x30, 0x30,
   0x30, 0x30, 0x30, 0x30, 0x31, 0, 0, 0]

/-- The numeric value of a `ProbeStatus_t` enumerator. -/
def probeStatusCode : ProbeStatus → ℕ
  | .OK => 0
  | .OPEN => 1
  | .SHORT => 2
  | .RANGE_ERR => 3

/-- `ProcessFrame` (app_comm.c): the command dispatch switch.  Flash
outcomes (`flashRead` for loads, `eraseOk`/`writeOk` for saves) and the
float codec are explicit inputs; DAC/LCD calls are side effects outside
the modelled state. -/
def ProcessFrame (fc : FloatCodec) (flashRead : Option UserParam)
    (eraseOk writeOk : Bool) (f : Frame) (st : AppState) : AppState × Resp :=
  if f.cmd = CMD_GET_DEVICE_ID then
    (st, .dataResp CMD_GET_DEVICE_ID device_id)
  else if f.cmd = CMD_GET_TEMPERATURE then
    (st, .dataResp CMD_GET_TEMPERATURE (fc.enc st.temp.g_temp.temperature_C))
  else if f.cmd = CMD_GET_VOLTAGE then
    (st, .dataResp CMD_GET_VOLTAGE (fc.enc st.temp.g_temp.filtered_voltage))
  else if f.cmd = CMD_GET_CURRENT then
    (st, .dataResp CMD_GET_CURRENT (fc.enc st.output.current_mA))
  else if f.cmd = CMD_GET_STATUS then
    (st, .dataResp CMD_GET_STATUS
      ([st.temp.g_temp.running, st.temp.g_temp.current_src,
        probeStatusCode st.temp.g_temp.probe_status, 0] ++
       le32 st.temp.g_temp.sample_count))
  else if f.cmd = CMD_SET_CURRENT_SRC then
    if f.len ≥ 1 ∧ f.data 0 ≤ 1 then
      ({ st with temp := APP_Temp_SetCurrentSource st.temp (f.data 0),
                 param := APP_Param_SetCurrentSource st.param (f.data 0) },
       .ack f.cmd STATUS_OK)
    else (st, .ack f.cmd STATUS_INVALID_PARAM)
  else if f.cmd = CMD_SET_CURRENT_ADJ_10 then
    if f.len ≥ 4 then
      let fval := fc.dec [f.data 0, f.data 1, f.data 2, f.data 3]
      ({ st with param := APP_Param_SetCurrentAdj10 fc st.param fval },
       .ack f.cmd STATUS_OK)
    else (st, .ack f.cmd STATUS_INVALID_PARAM)
  else if f.cmd = CMD_SET_CURRENT_ADJ_17 then
    if f.len ≥ 4 then
      let fval := fc.dec [f.data 0, f.data 1, f.data 2, f.data 3]
      ({ st with param := APP_Param_SetCurrentAdj17 fc st.param fval },
       .ack f.cmd STATUS_OK)
    else (st, .ack f.cmd STATUS_INVALID_PARAM)
  else if f.cmd = CMD_SET_4MA_TEMP then
    if f.len ≥ 4 then
      let fval := fc.dec [f.data 0, f.data 1, f.data 2, f.data 3]
      ({ st with param := APP_Param_Set4mATemp fc st.param fval,
                 output := APP_Output_Set4mATemp st.output fval },
       .ack f.cmd STATUS_OK)
    else (st, .ack f.cmd STATUS_INVALID_PARAM)
  else if f.cmd = CMD_SET_20MA_TEMP then
    if f.len ≥ 4 then
      let fval := fc.dec [f.data 0, f.data 1, f.data 2, f.data 3]
      ({ st with param := APP_Param_Set20mATemp fc st.param fval,
                 output := APP_Output_Set20mATemp st.output fval },
       .ack f.cmd STATUS_OK)
    else (st, .ack f.cmd STATUS_INVALID_PARAM)
  else if f.cmd = CMD_START_ACQ then
    ({ st with temp := APP_Temp_Start st.temp }, .ack f.cmd STATUS_OK)
  else if f.cmd = CMD_STOP_ACQ then
    ({ st with temp := APP_Temp_Stop st.temp }, .ack f.cmd STATUS_OK)
  else if f.cmd = CMD_SAVE_PARAM then
    let sv := APP_Param_Save eraseOk writeOk st.param
    ({ st with param := sv.2 },
     .ack f.cmd (if sv.1 = 0 then STATUS_OK else STATUS_FLASH_ERROR))
  else if f.cmd = CMD_LOAD_PARAM then
    let ld := APP_Param_Load flashRead st.param
    ({ st with param := ld.2 },
     .ack f.cmd (if ld.1 = 0 then STATUS_OK else STATUS_FLASH_ERROR))
  else if f.cmd = CMD_RESET_DEFAULT then
    ({ st with param := APP_Param_SetDefault fc st.param }, .ack f.cmd STATUS_OK)
  else
    (st, .ack f.cmd STATUS_INVALID_CMD)

/-- A trivial concrete codec for closed counterexamples. -/
def fcSeven : FloatCodec where
  enc := fun _ => [0, 0, 0, 0]
  dec := fun _ => 7

/-- A concrete application state for closed counterexamples. -/
def sampleAppState : AppState where
  param := sampleParam
  output := { temp_4mA := -200, temp_20mA := 100, current_mA := 4 }
  temp := errorModule

/-! ## Theorems for the dispatcher -/

/-- C4 counterexample: a `SET_4MA_TEMP` frame with a 5-byte payload —
which violates the claim's "exactly 4 bytes" precondition — is
*accepted*: the dispatcher acknowledges `STATUS_OK` (not "invalid
parameter") and mutates the 4 mA set-point. -/
theorem C4_counterexample :
    (ProcessFrame fcSeven none true true
      { cmd := CMD_SET_4MA_TEMP, len := 5, data := fun _ => 0 }
      sampleAppState).2 = .ack CMD_SET_4MA_TEMP STATUS_OK ∧
    (ProcessFrame fcSeven none true true
      { cmd := CMD_SET_4MA_TEMP, len := 5, data := fun _ => 0 }
      sampleAppState).1.output.temp_4mA = 7 ∧
    sampleAppState.output.temp_4mA = -200 := by
  refine ⟨?_, ?_, rfl⟩ <;>
    norm_num [ProcessFrame, CMD_GET_DEVICE_ID, CMD_GET_TEMPERATURE, CMD_GET_VOLTAGE,
      CMD_GET_CURRENT, CMD_GET_STATUS, CMD_SET_CURRENT_SRC, CMD_SET_CURRENT_ADJ_10,
      CMD_SET_CURRENT_ADJ_17, CMD_SET_4MA_TEMP, APP_Param_Set4mATemp,
      APP_Output_Set4mATemp, fcSeven]

/-- C4 (amended): the dispatcher validates a float-parameter payload as
*at least* 4 bytes (extra bytes are ignored) and the current-source
payload as at least 1 byte whose first byte is ≤ 1; whenever the check
fails it acknowledges "invalid parameter" and leaves the whole
application state untouched, and whenever it passes it acknowledges
OK. -/
theorem C4_dispatch_validation (fc : FloatCodec) (flashRead : Option UserParam)
    (eraseOk writeOk : Bool) (f : Frame) (st : AppState) :
    (f.cmd ∈ [CMD_SET_CURRENT_ADJ_10, CMD_SET_CURRENT_ADJ_17,
              CMD_SET_4MA_TEMP, CMD_SET_20MA_TEMP] → f.len < 4 →
      ProcessFrame fc flashRead eraseOk writeOk f st =
        (st, .ack f.cmd STATUS_INVALID_PARAM)) ∧
    (f.cmd = CMD_SET_CURRENT_SRC → (f.len = 0 ∨ 1 < f.data 0) →
      ProcessFrame fc flashRead eraseOk writeOk f st =
        (st, .ack f.cmd STATUS_INVALID_PARAM)) ∧
    (f.cmd ∈ [CMD_SET_CURRENT_ADJ_10, CMD_SET_CURRENT_ADJ_17,
              CMD_SET_4MA_TEMP, CMD_SET_20MA_TEMP] → 4 ≤ f.len →
      (ProcessFrame fc flashRead eraseOk writeOk f st).2 =
        .ack f.cmd STATUS_OK) ∧
    (f.cmd = CMD_SET_CURRENT_SRC → 1 ≤ f.len → f.data 0 ≤ 1 →
      (ProcessFrame fc flashRead eraseOk writeOk f st).2 =
        .ack f.cmd STATUS_OK) := by
  refine ⟨?_, ?_, ?_, ?_⟩
  · intro hmem hlen
    have hlen4 : ¬ 4 ≤ f.len := by omega
    simp only [List.mem_cons, List.not_mem_nil, or_false] at hmem
    rcases hmem with hc | hc | hc | hc <;>
      simp_all [ProcessFrame, CMD_GET_DEVICE_ID, CMD_GET_TEMPERATURE,
        CMD_GET_VOLTAGE, CMD_GET_CURRENT, CMD_GET_STATUS, CMD_SET_CURRENT_SRC,
        CMD_SET_CURRENT_ADJ_10, CMD_SET_CURRENT_ADJ_17, CMD_SET_4MA_TEMP,
        CMD_SET_20MA_TEMP]
  · intro hc hbad
    have : ¬ (1 ≤ f.len ∧ f.data 0 ≤ 1) := by omega
    simp_all [ProcessFrame, CMD_GET_DEVICE_ID, CMD_GET_TEMPERATURE,
      CMD_GET_VOLTAGE, CMD_GET_CURRENT, CMD_GET_STATUS, CMD_SET_CURRENT_SRC]
  · intro hmem hlen
    simp only [List.mem_cons, List.not_mem_nil, or_false] at hmem
    rcases hmem with hc | hc | hc | hc <;>
      simp_all [ProcessFrame, CMD_GET_DEVICE_ID, CMD_GET_TEMPERATURE,
        CMD_GET_VOLTAGE, CMD_GET_CURRENT, CMD_GET_STATUS, CMD_SET_CURRENT_SRC,
        CMD_SET_CURRENT_ADJ_10, CMD_SET_CURRENT_ADJ_17, CMD_SET_4MA_TEMP,
        CMD_SET_20MA_TEMP]
  · intro hc hlen hdata
    simp_all [ProcessFrame, CMD_GET_DEVICE_ID, CMD_GET_TEMPERATURE,
      CMD_GET_VOLTAGE, CMD_GET_CURRENT, CMD_GET_STATUS, CMD_SET_CURRENT_SRC]

/-- Witness for C4 (amended): a 3-byte `SET_4MA_TEMP` frame is rejected
with "invalid parameter" and does not change the state. -/
theorem C4_dispatch_validation_witness :
    ProcessFrame fcSeven none true true
      { cmd := CMD_SET_4MA_TEMP, len := 3, data := fun _ => 0 }
      sampleAppState =
      (sampleAppState, .ack CMD_SET_4MA_TEMP STATUS_INVALID_PARAM) :=
  (C4_dispatch_validation fcSeven none true true
    { cmd := CMD_SET_4MA_TEMP, len := 3, data := fun _ => 0 }
    sampleAppState).1 (by simp) (by decide)

/-! ## Lookup monotonicity (C9) -/

/-- Temperatures are nondecreasing along the point index when each
adjacent pair is ordered. -/
theorem temps_mono (tbl : TempTable)
    (htemp : ∀ i, i + 1 < tbl.point_count →
      (tbl.points i).temperature ≤ (tbl.points (i + 1)).temperature) :
    ∀ i j, i ≤ j → j < tbl.point_count →
      (tbl.points i).temperature ≤ (tbl.points j).temperature := by
  intro i j hij hj
  induction j, hij using Nat.le_induction with
  | base => exact le_refl _
  | succ j hij ih =>
    exact le_trans (ih (by omega)) (htemp j hj)

/-- Voltages are strictly decreasing along the point index when each
adjacent pair is ordered. -/
theorem volts_strict_anti (tbl : TempTable)
    (hdesc : ∀ i, i + 1 < tbl.point_count →
      (tbl.points (i + 1)).voltage < (tbl.points i).voltage) :
    ∀ i j, i < j → j < tbl.point_count →
      (tbl.points j).voltage < (tbl.points i).voltage := by
  intro i j hij hj
  induction j, hij using Nat.le_induction with
  | base => exact hdesc i hj
  | succ j hij ih =>
    exact lt_trans (hdesc j hj) (ih (by omega))

/-- Voltages are (weakly) decreasing along the point index. -/
theorem volts_anti (tbl : TempTable)
    (hdesc : ∀ i, i + 1 < tbl.point_count →
      (tbl.points (i + 1)).voltage < (tbl.points i).voltage) :
    ∀ i j, i ≤ j → j < tbl.point_count →
      (tbl.points j).voltage ≤ (tbl.points i).voltage := by
  intro i j hij hj
  rcases Nat.eq_or_lt_of_le hij with rfl | h
  · exact le_refl _
  · exact le_of_lt (volts_strict_anti tbl hdesc i j h hj)

/-- The linear interpolation value on one descending segment lies
between the segment's two endpoint temperatures. -/
theorem lerp_bounds (v0 v1 t0 t1 v : ℚ) (hv : v1 < v0) (ht : t0 ≤ t1)
    (h1 : v1 < v) (h2 : v ≤ v0) :
    t0 ≤ t0 + (v - v0) * (t1 - t0) / (v1 - v0) ∧
    t0 + (v - v0) * (t1 - t0) / (v1 - v0) ≤ t1 := by
  have hD : v1 - v0 < 0 := by linarith
  constructor
  · have hterm : 0 ≤ (v - v0) * (t1 - t0) / (v1 - v0) := by
      rw [div_nonneg_iff]
      right
      constructor
      · apply mul_nonpos_of_nonpos_of_nonneg <;> linarith
      · linarith
    linarith
  · have hterm : (v - v0) * (t1 - t0) / (v1 - v0) ≤ t1 - t0 := by
      rw [div_le_iff_of_neg hD]
      have : (t1 - t0) * (v1 - v0) ≤ (t1 - t0) * (v - v0) := by
        apply mul_le_mul_of_nonneg_left (by linarith) (by linarith)
      linarith [this, mul_comm (t1 - t0) (v - v0)]
    linarith

/-- On one descending segment the interpolation is antitone in the
voltage. -/
theorem lerp_anti (v0 v1 t0 t1 va vb : ℚ) (hv : v1 < v0) (ht : t0 ≤ t1)
    (hab : vb ≤ va) :
    t0 + (va - v0) * (t1 - t0) / (v1 - v0) ≤
    t0 + (vb - v0) * (t1 - t0) / (v1 - v0) := by
  have hD : v1 - v0 < 0 := by linarith
  have h := (div_le_div_right_of_neg hD).mpr
    (mul_le_mul_of_nonneg_right (sub_le_sub_right hab v0) (by linarith : (0:ℚ) ≤ t1 - t0))
  linarith [h]

/-- Under a valid header, lookup saturates high. -/
theorem lookup_ge_first (tbl : TempTable) (v : ℚ)
    (hver : APP_Temp_TableVerify tbl = 0) (h : (tbl.points 0).voltage ≤ v) :
    APP_Temp_TableLookup tbl v = (tbl.points 0).temperature := by
  unfold APP_Temp_TableLookup
  rw [if_neg (by simp [hver]), if_pos h]

/-- Under a valid header, lookup saturates low. -/
theorem lookup_le_last (tbl : TempTable) (v : ℚ)
    (hver : APP_Temp_TableVerify tbl = 0) (h1 : v < (tbl.points 0).voltage)
    (h2 : v ≤ (tbl.points (tbl.point_count - 1)).voltage) :
    APP_Temp_TableLookup tbl v =
      (tbl.points (tbl.point_count - 1)).temperature := by
  unfold APP_Temp_TableLookup
  rw [if_neg (by simp [hver]), if_neg (not_le.mpr h1), if_pos h2]

/-- A verified table has at least one point. -/
theorem point_count_pos (tbl : TempTable)
    (hver : APP_Temp_TableVerify tbl = 0) : 1 ≤ tbl.point_count := by
  by_contra h
  have : tbl.point_count = 0 := by omega
  simp [APP_Temp_TableVerify, this] at hver

/-- Exhaustive description of lookup on a voltage within the table's
outer bounds: first-point clamp, last-point clamp, or interpolation on
a bracketing segment. -/
theorem lookup_within_cases (tbl : TempTable) (v : ℚ)
    (hver : APP_Temp_TableVerify tbl = 0) :
    ((tbl.points 0).voltage ≤ v ∧
      APP_Temp_TableLookup tbl v = (tbl.points 0).temperature) ∨
    (v < (tbl.points 0).voltage ∧ v ≤ (tbl.points (tbl.point_count - 1)).voltage ∧
      APP_Temp_TableLookup tbl v = (tbl.points (tbl.point_count - 1)).temperature) ∨
    (∃ i, i + 1 ≤ tbl.point_count - 1 ∧
      (tbl.points (i + 1)).voltage < v ∧ v ≤ (tbl.points i).voltage ∧
      APP_Temp_TableLookup tbl v =
        (tbl.points i).temperature + (v - (tbl.points i).voltage) *
          ((tbl.points (i + 1)).temperature - (tbl.points i).temperature) /
          ((tbl.points (i + 1)).voltage - (tbl.points i).voltage)) := by
  rcases le_or_lt (tbl.points 0).voltage v with h0 | h0
  · exact Or.inl ⟨h0, lookup_ge_first tbl v hver h0⟩
  · rcases le_or_lt v (tbl.points (tbl.point_count - 1)).voltage with hl | hl
    · exact Or.inr (Or.inl ⟨h0, hl, lookup_le_last tbl v hver h0 hl⟩)
    · exact Or.inr (Or.inr (lookup_interior tbl v hver h0 hl))

/-- Global bounds: the lookup of any within-bounds voltage lies between
the first and the last point's temperature. -/
theorem lookup_bounds (tbl : TempTable) (v : ℚ)
    (hver : APP_Temp_TableVerify tbl = 0)
    (hdesc : ∀ i, i + 1 < tbl.point_count →
      (tbl.points (i + 1)).voltage < (tbl.points i).voltage)
    (htemp : ∀ i, i + 1 < tbl.point_count →
      (tbl.points i).temperature ≤ (tbl.points (i + 1)).temperature) :
    (tbl.points 0).temperature ≤ APP_Temp_TableLookup tbl v ∧
    APP_Temp_TableLookup tbl v ≤ (tbl.points (tbl.point_count - 1)).temperature := by
  have hn := point_count_pos tbl hver
  rcases lookup_within_cases tbl v hver with ⟨_, he⟩ | ⟨_, _, he⟩ | ⟨i, hi, hb1, hb2, he⟩
  · rw [he]
    exact ⟨le_refl _, temps_mono tbl htemp 0 (tbl.point_count - 1) (by omega) (by omega)⟩
  · rw [he]
    exact ⟨temps_mono tbl htemp 0 (tbl.point_count - 1) (by omega) (by omega), le_refl _⟩
  · have hi1 : i + 1 < tbl.point_count := by omega
    have hseg := lerp_bounds (tbl.points i).voltage (tbl.points (i + 1)).voltage
      (tbl.points i).temperature (tbl.points (i + 1)).temperature v
      (hdesc i hi1) (htemp i hi1) hb1 hb2
    rw [he]
    exact ⟨le_trans (temps_mono tbl htemp 0 i (by omega) (by omega)) hseg.1,
      le_trans hseg.2 (temps_mono tbl htemp (i + 1) (tbl.point_count - 1)
        (by omega) (by omega))⟩

/-- C9: for a verified table with a strictly descending voltage column
and temperatures increasing as voltage decreases, the lookup is
antitone on voltages within the table's outer bounds:
`v2 < v1 → lookup v1 ≤ lookup v2`. -/
theorem C9_lookup_monotone (tbl : TempTable) (v1 v2 : ℚ)
    (hver : APP_Temp_TableVerify tbl = 0)
    (hdesc : ∀ i, i + 1 < tbl.point_count →
      (tbl.points (i + 1)).voltage < (tbl.points i).voltage)
    (htemp : ∀ i, i + 1 < tbl.point_count →
      (tbl.points i).temperature ≤ (tbl.points (i + 1)).temperature)
    (hlo1 : (tbl.points (tbl.point_count - 1)).voltage ≤ v1)
    (hhi1 : v1 ≤ (tbl.points 0).voltage)
    (hlo2 : (tbl.points (tbl.point_count - 1)).voltage ≤ v2)
    (hhi2 : v2 ≤ (tbl.points 0).voltage)
    (h12 : v2 < v1) :
    APP_Temp_TableLookup tbl v1 ≤ APP_Temp_TableLookup tbl v2 := by
  have hn := point_count_pos tbl hver
  rcases lookup_within_cases tbl v1 hver with
    ⟨_, he1⟩ | ⟨_, hl1, _⟩ | ⟨i1, hi1, hb11, hb12, he1⟩
  · rw [he1]
    exact (lookup_bounds tbl v2 hver hdesc htemp).1
  · exact absurd (lt_of_lt_of_le h12 hl1) (not_lt.mpr hlo2)
  · have hi1n : i1 + 1 < tbl.point_count := by omega
    have hseg1 := lerp_bounds (tbl.points i1).voltage (tbl.points (i1 + 1)).voltage
      (tbl.points i1).temperature (tbl.points (i1 + 1)).temperature v1
      (hdesc i1 hi1n) (htemp i1 hi1n) hb11 hb12
    rcases lookup_within_cases tbl v2 hver with
      ⟨h20, he2⟩ | ⟨_, _, he2⟩ | ⟨i2, hi2, hb21, hb22, he2⟩
    · -- v2 at or above the first voltage contradicts v2 < v1 ≤ points i1 ≤ points 0
      have : v1 ≤ (tbl.points 0).voltage :=
        le_trans hb12 (volts_anti tbl hdesc 0 i1 (by omega) (by omega))
      linarith
    · -- v2 clamps to the last point: lookup v1 is below it
      rw [he1, he2]
      have := (lookup_bounds tbl v1 hver hdesc htemp).2
      rw [he1] at this
      exact this
    · have hi2n : i2 + 1 < tbl.point_count := by omega
      have hseg2 := lerp_bounds (tbl.points i2).voltage (tbl.points (i2 + 1)).voltage
        (tbl.points i2).temperature (tbl.points (i2 + 1)).temperature v2
        (hdesc i2 hi2n) (htemp i2 hi2n) hb21 hb22
      have hij : i1 ≤ i2 := by
        by_contra hij
        push_neg at hij
        have h1 : (tbl.points i1).voltage ≤ (tbl.points (i2 + 1)).voltage :=
          volts_anti tbl hdesc (i2 + 1) i1 (by omega) (by omega)
        linarith
      rcases Nat.eq_or_lt_of_le hij with rfl | hij
      · rw [he1, he2]
        exact lerp_anti (tbl.points i1).voltage (tbl.points (i1 + 1)).voltage
          (tbl.points i1).temperature (tbl.points (i1 + 1)).temperature v1 v2
          (hdesc i1 hi1n) (htemp i1 hi1n) (le_of_lt h12)
      · rw [he1, he2]
        exact le_trans hseg1.2 (le_trans
          (temps_mono tbl htemp (i1 + 1) i2 (by omega) (by omega)) hseg2.1)

/-- Witness for C9 on the synthetic table `[(100,0),(50,10),(0,20)]`
with `v1 = 75 > v2 = 25`: `lookup 75 = 5 ≤ 15 = lookup 25`. -/
theorem C9_lookup_monotone_witness :
    APP_Temp_TableLookup sampleTable 75 ≤ APP_Temp_TableLookup sampleTable 25 :=
  C9_lookup_monotone sampleTable 75 25 (by decide)
    (by intro i hi
        have : i = 0 ∨ i = 1 := by simp [sampleTable] at hi; omega
        rcases this with rfl | rfl <;> norm_num [sampleTable])
    (by intro i hi
        have : i = 0 ∨ i = 1 := by simp [sampleTable] at hi; omega
        rcases this with rfl | rfl <;> norm_num [sampleTable])
    (by norm_num [sampleTable]) (by norm_num [sampleTable])
    (by norm_num [sampleTable]) (by norm_num [sampleTable]) (by norm_num)

end UltraTM02
